import Mathlib

/-!
Verification of the directory-to-object-store synchronization engine of
GoDailyTools (the `alioss` tool).  Paths, patterns and object keys are
modelled as lists of characters (`Str`); Go strings are byte strings, but
every comparison performed by the engine is byte-for-byte, so a
character-level model is faithful for the character data that actually
occurs.  On the target platform the path separator is '/', hence
`filepath.ToSlash` and `filepath.FromSlash` are identities and are not
modelled explicitly.  Effectful collaborators (the local filesystem and the
Object Store Client) are modelled as oracle functions collected in `OSSEnv`;
`Except Unit` stands for Go's `(value, error)` results.
-/

abbrev Str := List Char

/-- Model of Go `strings.HasPrefix s pre`. -/
def hasPrefix (s pre : Str) : Bool := pre.isPrefixOf s

/-- Model of Go `strings.HasSuffix s suf`. -/
def hasSuffix (s suf : Str) : Bool := suf.isSuffixOf s

/-- Model of Go `strings.TrimSuffix s suf`. -/
def trimSuffix (s suf : Str) : Str :=
  if hasSuffix s suf then s.take (s.length - suf.length) else s

/-- Model of Go `strings.TrimPrefix s pre`. -/
def trimPrefixStr (s pre : Str) : Str :=
  if hasPrefix s pre then s.drop pre.length else s

/-- Model of Go `strings.Trim s cutset` for a single-character cutset:
all leading and all trailing occurrences of `c` are removed. -/
def trimCutset (s : Str) (c : Char) : Str :=
  ((s.dropWhile (· == c)).reverse.dropWhile (· == c)).reverse

/-- Stack step of `filepath.Clean`: processes the slash-separated components,
applying the documented rules (drop empty and "." components; ".." pops the
previous component when one exists; a leading ".." is kept for relative
paths and dropped for rooted ones).  `st` is the output stack, innermost
component first. -/
def cleanStack (rooted : Bool) : List Str → List Str → List Str
  | [], st => st
  | comp :: comps, st =>
    if comp.isEmpty || comp == ['.'] then cleanStack rooted comps st
    else if comp == ['.', '.'] then
      match st with
      | [] => if rooted then cleanStack rooted comps [] else cleanStack rooted comps [comp]
      | top :: rest =>
        if top == ['.', '.'] then cleanStack rooted comps (comp :: top :: rest)
        else cleanStack rooted comps rest
    else cleanStack rooted comps (comp :: st)

/-- Model of Go `filepath.Clean` (slash separator), per its documented
rules: iteratively replace runs of separators by one, eliminate "."
components, eliminate each inner ".." together with the preceding
component, and eliminate ".." components that begin a rooted path; the
result of cleaning the empty string is ".". -/
def clean (p : Str) : Str :=
  if p.isEmpty then ['.']
  else
    let rooted := hasPrefix p ['/']
    let comps := p.splitOn '/'
    let st := (cleanStack rooted comps []).reverse
    let joined := List.intercalate ['/'] st
    if rooted then '/' :: joined
    else if joined.isEmpty then ['.'] else joined

/-- Helper of `filepath.Base`: remove all trailing separators. -/
def stripTrailingSlashes (p : Str) : Str :=
  (p.reverse.dropWhile (· == '/')).reverse

/-- Model of Go `filepath.Base` (slash separator): "." for the empty path,
"/" for a path consisting only of separators, otherwise the last
path component after stripping trailing separators. -/
def baseName (p : Str) : Str :=
  if p.isEmpty then ['.']
  else
    let q := stripTrailingSlashes p
    if q.isEmpty then ['/']
    else (q.reverse.takeWhile (· != '/')).reverse

/-- Model of Go `filepath.Dir` (slash separator): `Clean` applied to the
part of the path up to and including the final separator; the empty
remainder cleans to ".". -/
def dirName (p : Str) : Str :=
  clean ((p.reverse.dropWhile (· != '/')).reverse)

/-- Chunk scanner of Go `filepath.Match`: returns the segment of the
pattern up to (but excluding) the next top-level '*', together with the
rest.  A '\\' escapes the following character; '*' inside a '[' ... ']'
range does not end the chunk. -/
def chunkSplit : Str → Bool → Str × Str
  | [], _ => ([], [])
  | c :: rest, inrange =>
    if c == '\\' then
      match rest with
      | [] => ([c], [])
      | d :: rest2 =>
        let (ch, r) := chunkSplit rest2 inrange
        (c :: d :: ch, r)
    else if c == '[' then
      let (ch, r) := chunkSplit rest true
      (c :: ch, r)
    else if c == ']' then
      let (ch, r) := chunkSplit rest false
      (c :: ch, r)
    else if c == '*' && !inrange then ([], c :: rest)
    else
      let (ch, r) := chunkSplit rest inrange
      (c :: ch, r)

/-- Model of `scanChunk` in Go `filepath.Match`: consume leading stars,
then split off the next literal chunk. -/
def scanChunk (p : Str) : Bool × Str × Str :=
  let star := !p.isEmpty && p.headD ' ' == '*'
  let q := p.dropWhile (· == '*')
  let (chunk, rest) := chunkSplit q false
  (star, chunk, rest)

/-- Model of `getEsc` in Go `filepath.Match`: read one possibly escaped
character of a '[' ... ']' range.  `Except.error` is Go's `ErrBadPattern`. -/
def getEsc : Str → Except Unit (Char × Str)
  | [] => .error ()
  | c :: rest =>
    if c == '-' || c == ']' then .error ()
    else if c == '\\' then
      match rest with
      | [] => .error ()
      | d :: rest2 => if rest2.isEmpty then .error () else .ok (d, rest2)
    else if rest.isEmpty then .error () else .ok (c, rest)

/-- Range-parsing loop of `matchChunk` in Go `filepath.Match`: parses the
lo-hi ranges of a character class and whether `r` fell in one of them.
The fuel argument bounds the iteration count; every iteration consumes at
least one character of the chunk, so a fuel of `chunk.length + 2` is
always sufficient and the `fuel = 0` case is unreachable at the call
sites below. -/
def parseRanges (r : Char) : Nat → Str → Nat → Bool → Except Unit (Bool × Str)
  | 0, _, _, _ => .error ()
  | fuel + 1, chunk, nrange, matched =>
    if chunk.headD ' ' == ']' && nrange > 0 then .ok (matched, chunk.tail)
    else
      match getEsc chunk with
      | .error _ => .error ()
      | .ok (lo, chunk1) =>
        match (if chunk1.headD ' ' == '-' then getEsc chunk1.tail else .ok (lo, chunk1)) with
        | .error _ => .error ()
        | .ok (hi, chunk2) =>
          let matched2 := if lo.val ≤ r.val && r.val ≤ hi.val then true else matched
          parseRanges r fuel chunk2 (nrange + 1) matched2

/-- Model of `matchChunk` in Go `filepath.Match`: match a literal chunk at
the start of `s`; `.ok (some t)` returns the unmatched tail, `.ok none` is
a failed match, `.error` a bad pattern.  The `failed` flag mirrors Go's:
once set, the chunk is still scanned for pattern errors but `s` no longer
advances (and the NUL character stands for Go's zero rune).  Fuel as in
`parseRanges`; `chunk.length + 1` is always sufficient. -/
def matchChunkGo : Nat → Str → Str → Bool → Except Unit (Option Str)
  | 0, _, _, _ => .error ()
  | fuel + 1, chunk, s, failed0 =>
    match chunk with
    | [] => if failed0 then .ok none else .ok (some s)
    | c :: chunkRest =>
      let failed := failed0 || s.isEmpty
      if c == '[' then
        let r := if failed then Char.ofNat 0 else s.headD ' '
        let s2 := if failed then s else s.tail
        let negated := chunkRest.headD ' ' == '^'
        let ch1 := if negated then chunkRest.tail else chunkRest
        match parseRanges r (ch1.length + 2) ch1 0 false with
        | .error _ => .error ()
        | .ok (m, ch2) =>
          let failed2 := if m == negated then true else failed
          matchChunkGo fuel ch2 s2 failed2
      else if c == '?' then
        if failed then matchChunkGo fuel chunkRest s failed
        else if s.headD ' ' == '/' then matchChunkGo fuel chunkRest s.tail true
        else matchChunkGo fuel chunkRest s.tail failed
      else if c == '\\' then
        match chunkRest with
        | [] => .error ()
        | d :: rest2 =>
          if failed then matchChunkGo fuel rest2 s failed
          else if d == s.headD ' ' then matchChunkGo fuel rest2 s.tail failed
          else matchChunkGo fuel rest2 s.tail true
      else
        if failed then matchChunkGo fuel chunkRest s failed
        else if c == s.headD ' ' then matchChunkGo fuel chunkRest s.tail failed
        else matchChunkGo fuel chunkRest s.tail true

def matchChunk (chunk s : Str) : Except Unit (Option Str) :=
  matchChunkGo (chunk.length + 1) chunk s false

mutual
/-- Main loop of Go `filepath.Match` over a slash-separated name.  Fuel
bounds the number of loop iterations: the outer loop consumes at least one
pattern character per iteration and the star-retry loop at least one name
character, so `goMatchFuel` below always suffices and the `fuel = 0` case
is unreachable from `goMatch`. -/
def goMatchAux : Nat → Str → Str → Option Bool
  | 0, _, _ => none
  | fuel + 1, pattern, name =>
    if pattern.isEmpty then some name.isEmpty
    else
      let (star, chunk, rest) := scanChunk pattern
      if star && chunk.isEmpty then some (!name.contains '/')
      else
        match matchChunk chunk name with
        | .ok (some t) =>
          if t.isEmpty || !rest.isEmpty then goMatchAux fuel rest t
          else if star then starLoop fuel chunk rest name
          else some false
        | .ok none =>
          if star then starLoop fuel chunk rest name
          else some false
        | .error _ => none

/-- Star-retry loop of Go `filepath.Match`: after a '*', retry the chunk at
each later position of the name, stopping at a separator. -/
def starLoop : Nat → Str → Str → Str → Option Bool
  | 0, _, _, _ => none
  | fuel + 1, chunk, rest, name =>
    match name with
    | [] => some false
    | c :: nameRest =>
      if c == '/' then some false
      else
        match matchChunk chunk nameRest with
        | .ok (some t) =>
          if rest.isEmpty && !t.isEmpty then starLoop fuel chunk rest nameRest
          else goMatchAux fuel rest t
        | .ok none => starLoop fuel chunk rest nameRest
        | .error _ => none
end

/-- Fuel that is always sufficient for `goMatchAux` (generous bound on the
total number of loop iterations of Go `filepath.Match`). -/
def goMatchFuel (pattern name : Str) : Nat :=
  (pattern.length + 2) * (name.length + 2)

/-- Model of Go `filepath.Match pattern name`: `none` is `ErrBadPattern`. -/
def goMatch (pattern name : Str) : Option Bool :=
  goMatchAux (goMatchFuel pattern name) pattern name

/-- The way the engine consumes `filepath.Match`: a match report with a
non-nil error counts as no match (`matched` is false in Go whenever
`err != nil`). -/
def goMatchB (pattern name : Str) : Bool := (goMatch pattern name).getD false

/-- Branch of `shouldExclude` for rules that begin with '/' and contain a
'*' (src/unnamed/part_000 lines 574-605).  `absPath` is the absolute form
of the candidate path; the rule matches directly only inside this branch,
while the plain absolute-prefix check that Go performs next is part of
`patternMatches` below. -/
def absWildcardMatch (absPath pattern : Str) : Bool :=
  let pfx := pattern.takeWhile (· != '*')
  if hasPrefix absPath pfx then
    if hasSuffix pattern ['/', '*'] then
      !(absPath.drop pfx.length).contains '/'
    else
      goMatchB (baseName pattern) (baseName absPath)
      || (hasPrefix absPath (dirName pattern) && goMatchB (baseName pattern) (baseName absPath))
  else false

/-- One iteration of the rule loop of `shouldExclude`
(src/unnamed/part_000 lines 572-652): whether this single pattern matches.
`normalizedPath` is `filepath.ToSlash` of the candidate (the identity
here) and `absPath` the result of `filepath.Abs` on it — an input of the
model, because `filepath.Abs` consults the process working directory; Go
leaves `absPath` empty when `filepath.Abs` fails. -/
def patternMatches (normalizedPath absPath : Str) (pattern : Str) : Bool :=
  if hasPrefix pattern ['/'] && pattern.contains '*' && absWildcardMatch absPath pattern then
    true
  else if hasPrefix pattern ['/'] then
    !absPath.isEmpty && (hasPrefix absPath pattern || absPath == pattern)
  else if hasSuffix pattern ['/'] && hasPrefix normalizedPath pattern then true
  else if pattern.contains '*' then
    if hasSuffix pattern ['/', '*'] then
      let pfx := trimSuffix pattern ['/', '*']
      hasPrefix normalizedPath (pfx ++ ['/'])
        && !(normalizedPath.drop (pfx.length + 1)).contains '/'
    else
      goMatchB pattern normalizedPath
      || (hasPrefix pattern ['*'] && hasSuffix normalizedPath (pattern.drop 1))
  else normalizedPath == pattern

/-- Model of `shouldExclude(path, options)` (src/unnamed/part_000 lines
558-655): the path is excluded when any rule matches, rules evaluated in
order with first match winning (`List.any` short-circuits exactly like the
Go loop).  A nil options pointer or an empty rule list never excludes. -/
def shouldExclude (path absOfPath : Str) (patterns : List Str) : Bool :=
  if patterns.isEmpty then false
  else patterns.any fun pattern => patternMatches path absOfPath pattern

/-- Oracle model of the local filesystem and the Object Store Client.
`fileMD5` is the lower-hex MD5 digest of a local file (`fileMD5` in the
source, abstracting crypto/md5 over the file's bytes), `isObjectExist`
and `getETag` the existence query and the ETag header of
`GetObjectDetailedMeta` (empty when the header is absent), `putObject`
the `PutObjectFromFile` call keyed by object key then local path.
`Except.error` stands for a non-nil Go error. -/
structure OSSEnv where
  fileMD5 : Str → Except Unit Str
  isObjectExist : Str → Except Unit Bool
  getETag : Str → Except Unit Str
  putObject : Str → Str → Except Unit Unit

/-- The quote-stripping of the remote entity tag:
`strings.Trim(etag, "\"")`. -/
def trimQuotes (s : Str) : Str := trimCutset s '"'

/-- Model of `(*OSSClient).needUpload` (src/unnamed/part_000 lines
142-172).  The pair is Go's `(bool, error)` with the error reduced to
presence: digest failure, existence-check failure and metadata failure
each yield `(true, error)`; an absent remote object yields `(true, nil)`;
otherwise the decision is whether the quote-stripped entity tag differs
from the local digest. -/
def needUpload (env : OSSEnv) (localPath ossPath : Str) : Bool × Bool :=
  match env.fileMD5 localPath with
  | .error _ => (true, true)
  | .ok localMD5 =>
    match env.isObjectExist ossPath with
    | .error _ => (true, true)
    | .ok exist =>
      if !exist then (true, false)
      else
        match env.getETag ossPath with
        | .error _ => (true, true)
        | .ok rawETag => (trimQuotes rawETag != localMD5, false)

/-- The upload options consumed by the directory engine (`UploadOptions`
in the source; a nil pointer is represented by an empty rule list with
all flags false). -/
structure UploadOptions where
  excludePatterns : List Str
  incremental : Bool
  concurrent : Bool
  workerCount : Int

/-- One regular file produced by `filepath.Walk`, with the path handed to
the callback, its path relative to the scan root (`filepath.Rel`, already
slash-separated on this platform), its absolute path (`filepath.Abs`),
and `relAbs`, the value `filepath.Abs` yields for the relative path — an
oracle input because it depends on the process working directory
(empty when `filepath.Abs` fails). -/
structure FileEntry where
  path : Str
  relPath : Str
  absPath : Str
  relAbs : Str
deriving DecidableEq

/-- The walker's exclusion test (both modes):
`shouldExclude(relPath, options) || shouldExclude(absPath, options)`.
Inside the second call `filepath.Abs` of an absolute path is its
`filepath.Clean`. -/
def isExcludedEntry (opts : UploadOptions) (f : FileEntry) : Bool :=
  shouldExclude f.relPath f.relAbs opts.excludePatterns
  || shouldExclude f.absPath (clean f.absPath) opts.excludePatterns

/-- Outcome of the sequential walk body for one file. -/
inductive StepOut where
  | excludedO
  | skippedO
  | uploadedO
  | hashFailO
  | putFailO
deriving DecidableEq

/-- Body of the `filepath.Walk` callback of `sequentialUploadDirectory`
(src/unnamed/part_000 lines 234-294) for one regular file: exclusion
check, then (in incremental mode) the `needUpload` probe whose error is
returned from the callback, then the upload whose error is likewise
returned.  `filepath.Abs` / `filepath.Rel` failures are not modelled
(their results are the oracle fields of `FileEntry`). -/
def seqStep (env : OSSEnv) (opts : UploadOptions) (ossDirPath : Str) (f : FileEntry) : StepOut :=
  if isExcludedEntry opts f then .excludedO
  else
    let ossObjectPath := ossDirPath ++ f.relPath
    if opts.incremental then
      let r := needUpload env f.path ossObjectPath
      if r.2 then .hashFailO
      else if !r.1 then .skippedO
      else
        match env.putObject ossObjectPath f.path with
        | .error _ => .putFailO
        | .ok _ => .uploadedO
    else
      match env.putObject ossObjectPath f.path with
      | .error _ => .putFailO
      | .ok _ => .uploadedO

/-- The counters of `sequentialUploadDirectory`. -/
structure SeqCounts where
  upload : Nat
  exclude : Nat
  skip : Nat
deriving DecidableEq

/-- The step outcomes that make the walk callback return a non-nil error. -/
def isFailStep : StepOut → Bool
  | .hashFailO => true
  | .putFailO => true
  | _ => false

/-- The `filepath.Walk` loop of `sequentialUploadDirectory`: files are
visited in order; a callback error aborts the walk at once (`filepath.Walk`
stops and returns that error), so later files are never visited.  Besides
Go's `(counts, error)` outcome the model records the trace of visited
files with their step outcomes. -/
def seqWalkAux (env : OSSEnv) (opts : UploadOptions) (ossDirPath : Str) :
    List FileEntry → SeqCounts → Except Unit SeqCounts × List (Str × StepOut)
  | [], c => (.ok c, [])
  | f :: rest, c =>
    match seqStep env opts ossDirPath f with
    | .excludedO =>
      let r := seqWalkAux env opts ossDirPath rest { c with exclude := c.exclude + 1 }
      (r.1, (f.path, .excludedO) :: r.2)
    | .skippedO =>
      let r := seqWalkAux env opts ossDirPath rest { c with skip := c.skip + 1 }
      (r.1, (f.path, .skippedO) :: r.2)
    | .uploadedO =>
      let r := seqWalkAux env opts ossDirPath rest { c with upload := c.upload + 1 }
      (r.1, (f.path, .uploadedO) :: r.2)
    | .hashFailO => (.error (), [(f.path, .hashFailO)])
    | .putFailO => (.error (), [(f.path, .putFailO)])

/-- Model of `(*OSSClient).sequentialUploadDirectory` (src/unnamed/part_000
lines 230-309), starting from zero counters. -/
def sequentialUploadDirectory (env : OSSEnv) (opts : UploadOptions) (ossDirPath : Str)
    (files : List FileEntry) : Except Unit SeqCounts × List (Str × StepOut) :=
  seqWalkAux env opts ossDirPath files ⟨0, 0, 0⟩

/-- The mutable task record of the concurrent mode (`uploadTask` in the
source); `err` records whether the task's error slot is non-nil. -/
structure UTask where
  localPath : Str
  ossPath : Str
  needUpload : Bool
  err : Bool
  needCheckHash : Bool
deriving DecidableEq

/-- The task the scan phase creates for a non-excluded file
(src/unnamed/part_000 lines 359-364). -/
def mkScanTask (opts : UploadOptions) (ossDirPath : Str) (f : FileEntry) : UTask :=
  { localPath := f.path, ossPath := ossDirPath ++ f.relPath,
    needUpload := true, err := false, needCheckHash := opts.incremental }

/-- Scan phase of `concurrentUploadDirectory` (src/unnamed/part_000 lines
314-372): walk the tree in order, count the excluded regular files and
turn every other one into a task with `needUpload = true` and
`needCheckHash` set in incremental mode. -/
def scanPhase (opts : UploadOptions) (ossDirPath : Str) : List FileEntry → List UTask × Nat
  | [] => ([], 0)
  | f :: rest =>
    let r := scanPhase opts ossDirPath rest
    if isExcludedEntry opts f then (r.1, r.2 + 1)
    else (mkScanTask opts ossDirPath f :: r.1, r.2)

/-- What a hash-check worker does to one task (src/unnamed/part_000 lines
403-415): on a `needUpload` error it records the error and leaves
`needUpload` untouched (hence true); otherwise it writes the boolean
result. -/
def hashCheckTask (env : OSSEnv) (t : UTask) : UTask :=
  let r := needUpload env t.localPath t.ossPath
  if r.2 then { t with err := true } else { t with needUpload := r.1 }

/-- The hash-check phase: only tasks flagged `needCheckHash` are sent to
the workers; each dispatched task is checked exactly once, and the final
task states do not depend on the worker interleaving because each task is
written by exactly one worker from a deterministic oracle. -/
def hashPhase (env : OSSEnv) (ts : List UTask) : List UTask :=
  ts.map fun t => if t.needCheckHash then hashCheckTask env t else t

/-- What an upload worker does to one task (src/unnamed/part_000 lines
469-489): tasks without `needUpload` are passed over; otherwise
`PutObjectFromFile` runs and a failure is recorded in the error slot (a
success writes nothing, so an earlier hash-check error is never
cleared). -/
def uploadTaskStep (env : OSSEnv) (t : UTask) : UTask :=
  if !t.needUpload then t
  else
    match env.putObject t.ossPath t.localPath with
    | .error _ => { t with err := true }
    | .ok _ => t

/-- The final tally of the concurrent mode. -/
structure ConcStats where
  success : Nat
  error : Nat
  skip : Nat
deriving DecidableEq

/-- The result loop at src/unnamed/part_000 lines 526-535: a task with a
recorded error counts as failed, else one without `needUpload` as
skipped, else as succeeded.  The Go loop runs front to back; counting by
recursion on the list yields the same counters because addition is
order-independent. -/
def tallyStats : List UTask → ConcStats
  | [] => ⟨0, 0, 0⟩
  | t :: ts =>
    let s := tallyStats ts
    if t.err then { s with error := s.error + 1 }
    else if !t.needUpload then { s with skip := s.skip + 1 }
    else { s with success := s.success + 1 }

/-- An object-store interaction of the concurrent engine: a `needUpload`
probe of a task during the hash-check phase, or an upload. -/
inductive StoreCall where
  | check (ossPath : Str)
  | put (ossPath : Str)
deriving DecidableEq

/-- The three ways `concurrentUploadDirectory` returns (walk errors are
not modelled; the file list is the oracle): an empty task list returns nil
at once (lines 379-385); in incremental mode, when nothing needs an
upload, nil is returned before the upload phase (lines 448-451);
otherwise the final tally with the aggregate-error flag
(`errorCount > 0`).  `uploadCount` is the number of dispatched tasks. -/
inductive ConcResult where
  | noTasks (excludeCount : Nat)
  | allUpToDate (excludeCount taskCount : Nat)
  | finished (stats : ConcStats) (excludeCount uploadCount : Nat) (aggErr : Bool)
deriving DecidableEq

/-- Result of a concurrent run plus the trace of object-store
interactions it performed. -/
structure ConcOutcome where
  result : ConcResult
  calls : List StoreCall
deriving DecidableEq

/-- The task list after the hash-check phase (which runs only in
incremental mode). -/
def checkedTasks (env : OSSEnv) (opts : UploadOptions) (ossDirPath : Str)
    (files : List FileEntry) : List UTask :=
  if opts.incremental then hashPhase env (scanPhase opts ossDirPath files).1
  else (scanPhase opts ossDirPath files).1

/-- Model of `(*OSSClient).concurrentUploadDirectory` (src/unnamed/part_000
lines 312-555).  The worker count parameter only chooses how many
goroutines share the queues; every task is processed exactly once by some
worker against the deterministic oracle, so it does not enter the outcome
(the progress ticker and console output are likewise unmodelled I/O).
The dispatch loop at lines 493-500 enqueues exactly the tasks with
`needUpload` set and each of those is uploaded once. -/
def concurrentUploadDirectory (env : OSSEnv) (opts : UploadOptions) (ossDirPath : Str)
    (files : List FileEntry) (_workerCount : Int) : ConcOutcome :=
  let scanned := scanPhase opts ossDirPath files
  let tasks := scanned.1
  let excludeCount := scanned.2
  if tasks.isEmpty then { result := .noTasks excludeCount, calls := [] }
  else
    let checked := checkedTasks env opts ossDirPath files
    let checkCalls :=
      if opts.incremental then
        (tasks.filter (·.needCheckHash)).map fun t => StoreCall.check t.ossPath
      else []
    if opts.incremental && checked.countP (·.needUpload) == 0 then
      { result := .allUpToDate excludeCount tasks.length, calls := checkCalls }
    else
      let dispatched := checked.filter (·.needUpload)
      let finalTasks := checked.map (uploadTaskStep env)
      let stats := tallyStats finalTasks
      { result := .finished stats excludeCount dispatched.length (stats.error != 0),
        calls := checkCalls ++ dispatched.map fun t => StoreCall.put t.ossPath }

/-- Outcome counts (succeeded, failed, skipped, excluded) of a concurrent
result: the two early nil returns correspond to nothing attempted
(respectively everything skipped). -/
def concQuad : ConcResult → Nat × Nat × Nat × Nat
  | .noTasks e => (0, 0, 0, e)
  | .allUpToDate e n => (0, 0, n, e)
  | .finished s e _ _ => (s.success, s.error, s.skip, e)

/-- Result of `UploadDirectory`: which mode ran and what it produced. -/
inductive DirResult where
  | seqR (result : Except Unit SeqCounts) (trace : List (Str × StepOut))
  | concR (outcome : ConcOutcome)

/-- A run of `UploadDirectory`, also recording the worker count the
dispatcher passed to the concurrent engine (none in sequential mode). -/
structure UDRun where
  usedWorkerCount : Option Int
  result : DirResult

/-- Model of `(*OSSClient).UploadDirectory` (src/unnamed/part_000 lines
191-227): normalize the destination prefix (append a trailing '/' when
non-empty, strip one leading '/'), then run the concurrent engine with
the configured worker count — replaced by the default 10 when it is not
positive — or the sequential engine. -/
def UploadDirectoryRun (env : OSSEnv) (opts : UploadOptions) (ossDirPath : Str)
    (files : List FileEntry) : UDRun :=
  let d1 := if !ossDirPath.isEmpty && !hasSuffix ossDirPath ['/'] then ossDirPath ++ ['/']
            else ossDirPath
  let d2 := trimPrefixStr d1 ['/']
  if opts.concurrent then
    let wc := if opts.workerCount ≤ 0 then 10 else opts.workerCount
    { usedWorkerCount := some wc,
      result := .concR (concurrentUploadDirectory env opts d2 files wc) }
  else
    let r := sequentialUploadDirectory env opts d2 files
    { usedWorkerCount := none, result := .seqR r.1 r.2 }

/-! ### Helper lemmas -/

theorem shouldExclude_of_mem {p a pat : Str} {patterns : List Str}
    (hmem : pat ∈ patterns) (hpm : patternMatches p a pat = true) :
    shouldExclude p a patterns = true := by
  cases patterns with
  | nil => cases hmem
  | cons q qs =>
    simp only [shouldExclude, List.isEmpty_cons, Bool.false_eq_true, if_false]
    exact List.any_eq_true.mpr ⟨pat, hmem, hpm⟩

theorem patternMatches_dirRule {p a : Str} (hp : hasPrefix p ("a/".toList) = true) :
    patternMatches p a ("a/".toList) = true := by
  simp only [patternMatches,
    show hasPrefix ("a/".toList) ['/'] = false from by decide,
    show hasSuffix ("a/".toList) ['/'] = true from by decide,
    Bool.false_and, Bool.true_and, hp]
  simp

theorem patternMatches_starRule_child {rest a : Str} (h : rest.contains '/' = false) :
    patternMatches ("a/".toList ++ rest) a ("a/*".toList) = true := by
  simp only [patternMatches,
    show hasPrefix ("a/*".toList) ['/'] = false from by decide,
    show hasSuffix ("a/*".toList) ['/'] = false from by decide,
    show ("a/*".toList).contains '*' = true from by decide,
    show hasSuffix ("a/*".toList) ['/', '*'] = true from by decide,
    show trimSuffix ("a/*".toList) ['/', '*'] = ['a'] from by decide,
    Bool.false_and, Bool.true_and]
  simp only [hasPrefix, List.isPrefixOf]
  have hm : '/' ∉ rest := by
    simp [List.contains, List.elem_eq_mem] at h; exact h
  simp [hm]

theorem patternMatches_starRule_deep {rest a : Str} (h : rest.contains '/' = true) :
    patternMatches ("a/".toList ++ rest) a ("a/*".toList) = false := by
  simp only [patternMatches,
    show hasPrefix ("a/*".toList) ['/'] = false from by decide,
    show hasSuffix ("a/*".toList) ['/'] = false from by decide,
    show ("a/*".toList).contains '*' = true from by decide,
    show hasSuffix ("a/*".toList) ['/', '*'] = true from by decide,
    show trimSuffix ("a/*".toList) ['/', '*'] = ['a'] from by decide,
    Bool.false_and, Bool.true_and]
  have hm : '/' ∈ rest := by
    simp [List.contains, List.elem_eq_mem] at h; exact h
  simp [hm]

theorem tallyStats_partition (ts : List UTask) :
    (tallyStats ts).success + (tallyStats ts).error + (tallyStats ts).skip = ts.length := by
  induction ts with
  | nil => rfl
  | cons t ts ih =>
    simp only [tallyStats, List.length_cons]
    split
    · simp only []; omega
    · split <;> · simp only []; omega

theorem tallyStats_error_eq (ts : List UTask) :
    (tallyStats ts).error = ts.countP (·.err) := by
  induction ts with
  | nil => rfl
  | cons t ts ih =>
    simp only [tallyStats, List.countP_cons]
    split
    · rename_i h; simp only [h]; simp [ih]
    · rename_i h; rw [Bool.not_eq_true] at h
      split <;> simp [ih, h]

theorem scanPhase_mem {opts : UploadOptions} {d : Str} {files : List FileEntry} {t : UTask}
    (ht : t ∈ (scanPhase opts d files).1) :
    t.needUpload = true ∧ t.err = false ∧ t.needCheckHash = opts.incremental := by
  induction files with
  | nil => cases ht
  | cons f fs ih =>
    simp only [scanPhase] at ht
    split at ht
    · exact ih ht
    · rcases List.mem_cons.mp ht with h | h
      · subst h; exact ⟨rfl, rfl, rfl⟩
      · exact ih h

theorem checkedTasks_length (env : OSSEnv) (opts : UploadOptions) (d : Str)
    (files : List FileEntry) :
    (checkedTasks env opts d files).length = (scanPhase opts d files).1.length := by
  unfold checkedTasks
  split <;> simp [hashPhase]

/-! ### Claim theorems -/

/-- Claim C1: with an exclusion rule set containing the directory rule
"a/", `shouldExclude` is true for every relative path starting with "a/"
(the rule's directory contents and all deeper descendants, for any value
of the absolute-path oracle and any surrounding rules); with a rule set
containing "a/*", every immediate child "a/x" (remainder free of '/') is
excluded; and under the rule set consisting of "a/*" alone, a deeper
descendant such as "a/b/c" (remainder containing '/') is not excluded. -/
theorem shouldExclude_dir_and_shallow_star :
    (∀ (rules : List Str) (p a : Str), ("a/".toList) ∈ rules →
        hasPrefix p ("a/".toList) = true → shouldExclude p a rules = true)
    ∧ (∀ (rules : List Str) (rest a : Str), ("a/*".toList) ∈ rules →
        rest.contains '/' = false →
        shouldExclude ("a/".toList ++ rest) a rules = true)
    ∧ (∀ (rest a : Str), rest.contains '/' = true →
        shouldExclude ("a/".toList ++ rest) a ["a/*".toList] = false) := by
  refine ⟨?_, ?_, ?_⟩
  · intro rules p a hmem hp
    exact shouldExclude_of_mem hmem (patternMatches_dirRule hp)
  · intro rules rest a hmem h
    exact shouldExclude_of_mem hmem (patternMatches_starRule_child h)
  · intro rest a h
    simp only [shouldExclude]
    simpa using patternMatches_starRule_deep (a := a) h

/-- Witness for C1 at concrete inputs: the rules ["x", "a/"] exclude the
descendant "a/b/c"; the rule "a/*" excludes the immediate child "a/b";
and the rule set ["a/*"] does not exclude "a/b/c". -/
theorem shouldExclude_dir_and_shallow_star_witness :
    shouldExclude ("a/b/c".toList) ("/w/a/b/c".toList) ["x".toList, "a/".toList] = true
    ∧ shouldExclude ("a/b".toList) ("/w/a/b".toList) ["a/*".toList] = true
    ∧ shouldExclude ("a/b/c".toList) ("/w/a/b/c".toList) ["a/*".toList] = false := by
  refine ⟨?_, ?_, ?_⟩
  · exact shouldExclude_dir_and_shallow_star.1 _ ("a/b/c".toList) ("/w/a/b/c".toList)
      (by decide) (by decide)
  · exact shouldExclude_dir_and_shallow_star.2.1 ["a/*".toList] ("b".toList)
      ("/w/a/b".toList) (by decide) (by decide)
  · exact shouldExclude_dir_and_shallow_star.2.2 ("b/c".toList) ("/w/a/b/c".toList)
      (by decide)

/-- Claim C2: with the local digest available, `needUpload` reports
`(true, nil)` when the remote object is absent, and when it is present
the transfer decision is exactly whether the quote-stripped entity tag
differs byte-for-byte from the local digest (with no error). -/
theorem needUpload_absent_or_etag (env : OSSEnv) (lp rk dg : Str)
    (hmd5 : env.fileMD5 lp = .ok dg) :
    (env.isObjectExist rk = .ok false → needUpload env lp rk = (true, false))
    ∧ (∀ rawETag, env.isObjectExist rk = .ok true → env.getETag rk = .ok rawETag →
        needUpload env lp rk = (trimQuotes rawETag != dg, false)
        ∧ ((needUpload env lp rk).1 = true ↔ trimQuotes rawETag ≠ dg)) := by
  refine ⟨?_, ?_⟩
  · intro he
    simp [needUpload, hmd5, he]
  · intro rawETag he hg
    have h1 : needUpload env lp rk = (trimQuotes rawETag != dg, false) := by
      simp [needUpload, hmd5, he, hg]
    refine ⟨h1, ?_⟩
    rw [h1]
    simp [bne_iff_ne]

/-- Claim C7: whenever `needUpload` reports an error, its boolean result
is true — an I/O failure can never surface as a silent skip. -/
theorem needUpload_error_implies_true (env : OSSEnv) (l o : Str)
    (h : (needUpload env l o).2 = true) : (needUpload env l o).1 = true := by
  unfold needUpload at h ⊢
  cases hm : env.fileMD5 l with
  | error e => simp [hm]
  | ok md5 =>
    cases he : env.isObjectExist o with
    | error e => simp [hm, he]
    | ok ex =>
      cases ex with
      | false => simp [hm, he]
      | true =>
        cases hg : env.getETag o with
        | error e => simp [hm, he, hg]
        | ok rawETag =>
          rw [hm, he, hg] at h
          simp at h

/-- Claim C10: when the scan produces no tasks, the concurrent mode
returns the nil `noTasks` outcome at once, performing no object-store
call at all. -/
theorem concurrent_empty_plan_noop (env : OSSEnv) (opts : UploadOptions) (d : Str)
    (files : List FileEntry) (w : Int) (h : (scanPhase opts d files).1 = []) :
    concurrentUploadDirectory env opts d files w
      = { result := .noTasks (scanPhase opts d files).2, calls := [] } := by
  simp [concurrentUploadDirectory, h]

/-- Claim C5: at completion of concurrent mode the final tally partitions
the task list — every task is counted in exactly one of succeeded, failed
or skipped by the mutually exclusive branches of the result loop, so the
three counters sum to the number of scanned tasks. -/
theorem concurrent_tally_partition (env : OSSEnv) (opts : UploadOptions) (d : Str)
    (files : List FileEntry) (w : Int) (stats : ConcStats) (e u : Nat) (a : Bool)
    (h : (concurrentUploadDirectory env opts d files w).result = .finished stats e u a) :
    stats.success + stats.error + stats.skip = (scanPhase opts d files).1.length := by
  simp only [concurrentUploadDirectory] at h
  split at h
  · simp at h
  · split at h
    · simp at h
    · simp only [ConcResult.finished.injEq] at h
      obtain ⟨hs, -, -, -⟩ := h
      subst hs
      rw [tallyStats_partition, List.length_map, checkedTasks_length]

/-- Claim C6: every upload call of the concurrent engine originates from
a task whose `needUpload` flag is true after the hash-check phase — the
dispatch loop enqueues only those tasks, so no task with
`needUpload = false` ever reaches the upload phase. -/
theorem concurrent_put_only_needUpload (env : OSSEnv) (opts : UploadOptions) (d : Str)
    (files : List FileEntry) (w : Int) (p : Str)
    (h : StoreCall.put p ∈ (concurrentUploadDirectory env opts d files w).calls) :
    ∃ t ∈ checkedTasks env opts d files, t.needUpload = true ∧ t.ossPath = p := by
  simp only [concurrentUploadDirectory] at h
  split at h
  · simp at h
  · split at h
    · exfalso
      revert h
      split
      · intro h
        rcases List.mem_map.mp h with ⟨t, -, ht⟩
        exact StoreCall.noConfusion ht
      · intro h
        cases h
    · rcases List.mem_append.mp h with h1 | h2
      · exfalso
        revert h1
        split
        · intro h1
          rcases List.mem_map.mp h1 with ⟨t, -, ht⟩
          exact StoreCall.noConfusion ht
        · intro h1
          cases h1
      · rcases List.mem_map.mp h2 with ⟨t, htmem, ht⟩
        have hp : t.ossPath = p := by injection ht
        have hmf := List.mem_filter.mp htmem
        exact ⟨t, hmf.1, by simpa using hmf.2, hp⟩

/-- Claim C8: when concurrent mode is requested, a configured worker
count at most zero is replaced by the documented default of 10, and a
positive configured value is used as given. -/
theorem uploadDirectory_worker_default (env : OSSEnv) (opts : UploadOptions) (d : Str)
    (files : List FileEntry) (hc : opts.concurrent = true) :
    (opts.workerCount ≤ 0 →
        (UploadDirectoryRun env opts d files).usedWorkerCount = some 10)
    ∧ (0 < opts.workerCount →
        (UploadDirectoryRun env opts d files).usedWorkerCount = some opts.workerCount) := by
  constructor
  · intro hw
    simp [UploadDirectoryRun, hc, hw]
  · intro hw
    simp [UploadDirectoryRun, hc, show ¬opts.workerCount ≤ 0 from by omega]

/-! ### Concrete fixtures shared by witnesses and counterexamples -/

def fileA : FileEntry :=
  { path := "r/a.txt".toList, relPath := "a.txt".toList,
    absPath := "/r/a.txt".toList, relAbs := "/w/a.txt".toList }

def fileB : FileEntry :=
  { path := "r/sub/b.txt".toList, relPath := "sub/b.txt".toList,
    absPath := "/r/sub/b.txt".toList, relAbs := "/w/sub/b.txt".toList }

def optsPlain : UploadOptions := ⟨[], false, false, 10⟩

def optsIncr : UploadOptions := ⟨[], true, false, 10⟩

def optsConc (w : Int) : UploadOptions := ⟨[], false, true, w⟩

def envAllOk : OSSEnv where
  fileMD5 := fun _ => .ok ("d41d8cd98f00b204e9800998ecf8427e".toList)
  isObjectExist := fun _ => .ok false
  getETag := fun _ => .ok []
  putObject := fun _ _ => .ok ()

def envPutFailA : OSSEnv :=
  { envAllOk with
    putObject := fun oss _ => if oss == "proj/a.txt".toList then .error () else .ok () }

def envMD5Fail : OSSEnv := { envAllOk with fileMD5 := fun _ => .error () }

def envETagMatch : OSSEnv where
  fileMD5 := fun _ => .ok ("abc123".toList)
  isObjectExist := fun _ => .ok true
  getETag := fun _ => .ok ("\"abc123\"".toList)
  putObject := fun _ _ => .ok ()

/-- Witness for C2: with a remote tag carrying quotes around the same
hex digest as the local file, no transfer is needed and no error is
reported; with an absent remote object the transfer is needed without
error. -/
theorem needUpload_absent_or_etag_witness :
    needUpload envETagMatch ("f".toList) ("k".toList) = (false, false)
    ∧ needUpload envAllOk ("f".toList) ("k".toList) = (true, false) := by
  constructor
  · have h := (needUpload_absent_or_etag envETagMatch ("f".toList) ("k".toList)
      ("abc123".toList) rfl).2 ("\"abc123\"".toList) rfl rfl
    rw [h.1]
    decide
  · exact (needUpload_absent_or_etag envAllOk ("f".toList) ("k".toList)
      ("d41d8cd98f00b204e9800998ecf8427e".toList) rfl).1 rfl

/-- Witness for C7: a digest failure yields an error together with a
true transfer decision. -/
theorem needUpload_error_implies_true_witness :
    (needUpload envMD5Fail ("f".toList) ("k".toList)).2 = true
    ∧ (needUpload envMD5Fail ("f".toList) ("k".toList)).1 = true :=
  ⟨rfl, needUpload_error_implies_true envMD5Fail ("f".toList) ("k".toList) rfl⟩

/-- Witness for C10: an empty file list yields the immediate nil outcome
with no store call. -/
theorem concurrent_empty_plan_noop_witness :
    concurrentUploadDirectory envAllOk optsPlain ("proj/".toList) [] 10
      = { result := .noTasks 0, calls := [] } :=
  concurrent_empty_plan_noop envAllOk optsPlain ("proj/".toList) [] 10 rfl

/-- Witness for C8: a configured worker count of 0 runs with 10 workers,
and a configured count of 7 runs with 7. -/
theorem uploadDirectory_worker_default_witness :
    (UploadDirectoryRun envAllOk (optsConc 0) ("proj".toList) [fileA]).usedWorkerCount
        = some 10
    ∧ (UploadDirectoryRun envAllOk (optsConc 7) ("proj".toList) [fileA]).usedWorkerCount
        = some 7 :=
  ⟨(uploadDirectory_worker_default envAllOk (optsConc 0) ("proj".toList) [fileA] rfl).1
      (by decide),
   (uploadDirectory_worker_default envAllOk (optsConc 7) ("proj".toList) [fileA] rfl).2
      (by decide)⟩

/-- Counterexample for C3 as stated: two files, the first of which fails
to upload.  The sequential walk returns an error having visited only the
first file; the second task is never processed, refuting the claim that
tasks after a failing one are still processed. -/
theorem sequential_fail_fast_counterexample :
    (sequentialUploadDirectory envPutFailA optsPlain ("proj/".toList) [fileA, fileB]).1
        = .error ()
    ∧ (sequentialUploadDirectory envPutFailA optsPlain ("proj/".toList) [fileA, fileB]).2
        = [("r/a.txt".toList, StepOut.putFailO)]
    ∧ ((sequentialUploadDirectory envPutFailA optsPlain ("proj/".toList)
          [fileA, fileB]).2.map Prod.fst).contains ("r/sub/b.txt".toList) = false :=
  ⟨rfl, rfl, rfl⟩

/-- Claim C3 (amended): in sequential mode a per-task error is fail-fast
rather than tolerated: when the walk callback fails on a file, the walk
returns that error immediately and none of the remaining files is
processed (the visited trace ends at the failing file). -/
theorem sequential_fail_fast (env : OSSEnv) (opts : UploadOptions) (d : Str)
    (f : FileEntry) (rest : List FileEntry) (c : SeqCounts)
    (h : isFailStep (seqStep env opts d f) = true) :
    seqWalkAux env opts d (f :: rest) c
      = (.error (), [(f.path, seqStep env opts d f)]) := by
  cases hs : seqStep env opts d f with
  | excludedO => rw [hs] at h; cases h
  | skippedO => rw [hs] at h; cases h
  | uploadedO => rw [hs] at h; cases h
  | hashFailO => simp [seqWalkAux, hs]
  | putFailO => simp [seqWalkAux, hs]

/-- Witness for the amended C3: the failing first task aborts the walk,
leaving the second unvisited. -/
theorem sequential_fail_fast_witness :
    seqWalkAux envPutFailA optsPlain ("proj/".toList) [fileA, fileB] ⟨0, 0, 0⟩
      = (.error (),
          [(fileA.path, seqStep envPutFailA optsPlain ("proj/".toList) fileA)]) :=
  sequential_fail_fast envPutFailA optsPlain ("proj/".toList) fileA [fileB] ⟨0, 0, 0⟩ rfl

/-- Claim C9: in concurrent incremental mode a task whose hash check
errors keeps `needUpload = true` with the error recorded, is dispatched
to the upload phase, and — because a successful upload never clears the
error slot — is still counted as failed, so the final tally reports at
least one failure and the aggregate-error flag. -/
theorem concurrent_hash_error_still_failed (env : OSSEnv) (opts : UploadOptions) (d : Str)
    (files : List FileEntry) (w : Int) (t : UTask)
    (hinc : opts.incremental = true)
    (ht : t ∈ (scanPhase opts d files).1)
    (herr : (needUpload env t.localPath t.ossPath).2 = true)
    (hput : env.putObject t.ossPath t.localPath = .ok ()) :
    (hashCheckTask env t).needUpload = true
    ∧ (hashCheckTask env t).err = true
    ∧ hashCheckTask env t ∈ (checkedTasks env opts d files).filter (·.needUpload)
    ∧ (uploadTaskStep env (hashCheckTask env t)).err = true
    ∧ ∃ stats e u, (concurrentUploadDirectory env opts d files w).result
        = .finished stats e u true ∧ 0 < stats.error := by
  obtain ⟨hnu, herr0, hchk⟩ := scanPhase_mem ht
  have h1 : hashCheckTask env t = { t with err := true } := by
    simp [hashCheckTask, herr]
  have hnu1 : (hashCheckTask env t).needUpload = true := by rw [h1]; exact hnu
  have herr1 : (hashCheckTask env t).err = true := by rw [h1]
  have hmem2 : hashCheckTask env t ∈ checkedTasks env opts d files := by
    unfold checkedTasks
    rw [hinc]
    simp only [if_true]
    unfold hashPhase
    refine List.mem_map.mpr ⟨t, ht, ?_⟩
    rw [hchk, hinc]
    simp
  have hfil : hashCheckTask env t ∈ (checkedTasks env opts d files).filter (·.needUpload) :=
    List.mem_filter.mpr ⟨hmem2, by simp [hnu1]⟩
  have h4 : (uploadTaskStep env (hashCheckTask env t)).err = true := by
    unfold uploadTaskStep
    rw [hnu1]
    simp only [Bool.not_true, Bool.false_eq_true, if_false]
    rw [h1]
    simp only []
    rw [hput]
  have htasksne : (scanPhase opts d files).1 ≠ [] := List.ne_nil_of_mem ht
  have hpos : 0 < (tallyStats ((checkedTasks env opts d files).map (uploadTaskStep env))).error := by
    rw [tallyStats_error_eq]
    refine List.countP_pos_iff.mpr ⟨uploadTaskStep env (hashCheckTask env t),
      List.mem_map.mpr ⟨_, hmem2, rfl⟩, by simp [h4]⟩
  have hcount : ((checkedTasks env opts d files).countP (·.needUpload) == 0) = false := by
    refine Bool.eq_false_iff.mpr ?_
    intro h0
    have h0' := beq_iff_eq.mp h0
    have := List.countP_eq_zero.mp h0' _ hmem2
    simp [hnu1] at this
  have hflag : ((tallyStats ((checkedTasks env opts d files).map (uploadTaskStep env))).error != 0)
      = true := by
    simpa [bne_iff_ne] using Nat.pos_iff_ne_zero.mp hpos
  refine ⟨hnu1, herr1, hfil, h4, ?_⟩
  simp only [concurrentUploadDirectory]
  rw [show (scanPhase opts d files).1.isEmpty = false by simpa [List.isEmpty_iff] using htasksne]
  simp only [Bool.false_eq_true, if_false, hinc, hcount, Bool.and_false]
  exact ⟨tallyStats ((checkedTasks env opts d files).map (uploadTaskStep env)),
    (scanPhase opts d files).2,
    ((checkedTasks env opts d files).filter (·.needUpload)).length,
    by rw [hflag], hpos⟩

/-- Category counts of the sequential step over a file list: what the
sequential counters tally when no step fails (a proof artifact for the
mode-equivalence results). -/
def seqTally (env : OSSEnv) (opts : UploadOptions) (d : Str) : List FileEntry → SeqCounts
  | [] => ⟨0, 0, 0⟩
  | f :: rest =>
    let s := seqTally env opts d rest
    match seqStep env opts d f with
    | .excludedO => { s with exclude := s.exclude + 1 }
    | .skippedO => { s with skip := s.skip + 1 }
    | .uploadedO => { s with upload := s.upload + 1 }
    | _ => s

theorem seqWalkAux_ok (env : OSSEnv) (opts : UploadOptions) (d : Str)
    (files : List FileEntry) (c : SeqCounts)
    (h : ∀ f ∈ files, isFailStep (seqStep env opts d f) = false) :
    (seqWalkAux env opts d files c).1
      = .ok ⟨c.upload + (seqTally env opts d files).upload,
             c.exclude + (seqTally env opts d files).exclude,
             c.skip + (seqTally env opts d files).skip⟩ := by
  induction files generalizing c with
  | nil => simp [seqWalkAux, seqTally]
  | cons f fs ih =>
    have hf := h f (List.mem_cons_self f fs)
    have hfs : ∀ g ∈ fs, isFailStep (seqStep env opts d g) = false :=
      fun g hg => h g (List.mem_cons_of_mem f hg)
    cases hs : seqStep env opts d f with
    | excludedO =>
      simp only [seqWalkAux, seqTally, hs]
      rw [ih _ hfs]
      simp only [Except.ok.injEq, SeqCounts.mk.injEq, true_and, and_true]
      omega
    | skippedO =>
      simp only [seqWalkAux, seqTally, hs]
      rw [ih _ hfs]
      simp only [Except.ok.injEq, SeqCounts.mk.injEq, true_and, and_true]
      omega
    | uploadedO =>
      simp only [seqWalkAux, seqTally, hs]
      rw [ih _ hfs]
      simp only [Except.ok.injEq, SeqCounts.mk.injEq, true_and, and_true]
      omega
    | hashFailO => rw [hs] at hf; cases hf
    | putFailO => rw [hs] at hf; cases hf

/-- The state of a non-excluded file's task after the (possibly skipped)
hash-check phase, as a function of the file (proof artifact). -/
def chkTask (env : OSSEnv) (opts : UploadOptions) (d : Str) (f : FileEntry) : UTask :=
  if opts.incremental then hashCheckTask env (mkScanTask opts d f)
  else mkScanTask opts d f

theorem perFile_uploaded (env : OSSEnv) (opts : UploadOptions) (d : Str) (f : FileEntry)
    (hexf : isExcludedEntry opts f = false)
    (hs : seqStep env opts d f = .uploadedO) :
    (chkTask env opts d f).needUpload = true
    ∧ uploadTaskStep env (chkTask env opts d f) = chkTask env opts d f
    ∧ (chkTask env opts d f).err = false := by
  simp only [seqStep, hexf, Bool.false_eq_true, if_false] at hs
  cases hinc : opts.incremental with
  | false =>
    rw [hinc] at hs
    simp only [Bool.false_eq_true, if_false] at hs
    cases hput : env.putObject (d ++ f.relPath) f.path with
    | error e => rw [hput] at hs; cases hs
    | ok u =>
      refine ⟨by simp [chkTask, hinc, mkScanTask], ?_, by simp [chkTask, hinc, mkScanTask]⟩
      simp [chkTask, hinc, uploadTaskStep, mkScanTask, hput]
  | true =>
    rw [hinc] at hs
    simp only [if_true] at hs
    cases hr2 : (needUpload env f.path (d ++ f.relPath)).2 with
    | true => rw [hr2] at hs; simp at hs
    | false =>
      rw [hr2] at hs
      simp only [Bool.false_eq_true, if_false] at hs
      cases hr1 : (needUpload env f.path (d ++ f.relPath)).1 with
      | false => rw [hr1] at hs; simp at hs
      | true =>
        rw [hr1] at hs
        simp only [Bool.not_true, Bool.false_eq_true, if_false] at hs
        cases hput : env.putObject (d ++ f.relPath) f.path with
        | error e => rw [hput] at hs; cases hs
        | ok u =>
          have hchk : chkTask env opts d f
              = { mkScanTask opts d f with needUpload := true } := by
            simp [chkTask, hinc, hashCheckTask, mkScanTask, hr2, hr1]
          refine ⟨by rw [hchk], ?_, by rw [hchk]; rfl⟩
          rw [hchk]
          simp [uploadTaskStep, mkScanTask, hput]

theorem perFile_skipped (env : OSSEnv) (opts : UploadOptions) (d : Str) (f : FileEntry)
    (hexf : isExcludedEntry opts f = false)
    (hs : seqStep env opts d f = .skippedO) :
    (chkTask env opts d f).needUpload = false
    ∧ uploadTaskStep env (chkTask env opts d f) = chkTask env opts d f
    ∧ (chkTask env opts d f).err = false := by
  simp only [seqStep, hexf, Bool.false_eq_true, if_false] at hs
  cases hinc : opts.incremental with
  | false =>
    rw [hinc] at hs
    simp only [Bool.false_eq_true, if_false] at hs
    cases hput : env.putObject (d ++ f.relPath) f.path with
    | error e => rw [hput] at hs; cases hs
    | ok u => rw [hput] at hs; cases hs
  | true =>
    rw [hinc] at hs
    simp only [if_true] at hs
    cases hr2 : (needUpload env f.path (d ++ f.relPath)).2 with
    | true => rw [hr2] at hs; simp at hs
    | false =>
      rw [hr2] at hs
      simp only [Bool.false_eq_true, if_false] at hs
      cases hr1 : (needUpload env f.path (d ++ f.relPath)).1 with
      | true =>
        rw [hr1] at hs
        simp only [Bool.not_true, Bool.false_eq_true, if_false] at hs
        cases hput : env.putObject (d ++ f.relPath) f.path with
        | error e => rw [hput] at hs; cases hs
        | ok u => rw [hput] at hs; cases hs
      | false =>
        have hchk : chkTask env opts d f
            = { mkScanTask opts d f with needUpload := false } := by
          simp [chkTask, hinc, hashCheckTask, mkScanTask, hr2, hr1]
        refine ⟨by rw [hchk], ?_, by rw [hchk]; rfl⟩
        rw [hchk]
        simp [uploadTaskStep]

theorem scanPhase_fst (opts : UploadOptions) (d : Str) (files : List FileEntry) :
    (scanPhase opts d files).1
      = (files.filter (fun f => !isExcludedEntry opts f)).map (mkScanTask opts d) := by
  induction files with
  | nil => rfl
  | cons f fs ih =>
    simp only [scanPhase, List.filter_cons]
    cases hex : isExcludedEntry opts f with
    | false => simp [hex, ih]
    | true => simp [hex, ih]

theorem scanPhase_snd (opts : UploadOptions) (d : Str) (files : List FileEntry) :
    (scanPhase opts d files).2 = files.countP (fun f => isExcludedEntry opts f) := by
  induction files with
  | nil => rfl
  | cons f fs ih =>
    simp only [scanPhase, List.countP_cons]
    cases hex : isExcludedEntry opts f with
    | false => simp [hex, ih]
    | true => simp [hex, ih]

theorem seqStep_excluded (env : OSSEnv) (opts : UploadOptions) (d : Str) (f : FileEntry)
    (hex : isExcludedEntry opts f = true) : seqStep env opts d f = .excludedO := by
  simp [seqStep, hex]

theorem concSeqCore (env : OSSEnv) (opts : UploadOptions) (d : Str) (files : List FileEntry)
    (h : ∀ f ∈ files, isFailStep (seqStep env opts d f) = false) :
    tallyStats ((files.filter (fun f => !isExcludedEntry opts f)).map
        (fun f => uploadTaskStep env (chkTask env opts d f)))
      = ⟨(seqTally env opts d files).upload, 0, (seqTally env opts d files).skip⟩
    ∧ files.countP (fun f => isExcludedEntry opts f) = (seqTally env opts d files).exclude
    ∧ ((files.filter (fun f => !isExcludedEntry opts f)).map
          (chkTask env opts d)).countP (·.needUpload)
        = (seqTally env opts d files).upload := by
  induction files with
  | nil => exact ⟨rfl, rfl, rfl⟩
  | cons f fs ih =>
    have hf := h f (List.mem_cons_self f fs)
    obtain ⟨ih1, ih2, ih3⟩ := ih (fun g hg => h g (List.mem_cons_of_mem f hg))
    cases hex : isExcludedEntry opts f with
    | true =>
      have hs := seqStep_excluded env opts d f hex
      simp only [List.filter_cons, List.countP_cons, hex, seqTally, hs,
        Bool.not_true, Bool.false_eq_true, if_false, if_true]
      refine ⟨?_, ?_, ?_⟩
      · exact ih1
      · simp [ih2]
      · exact ih3
    | false =>
      cases hs : seqStep env opts d f with
      | excludedO =>
        rw [seqStep, hex] at hs
        simp only [Bool.false_eq_true, if_false] at hs
        revert hs
        split
        · split
          · intro hs; cases hs
          · split
            · intro hs; cases hs
            · intro hs; revert hs; split <;> (intro hs; cases hs)
        · intro hs; revert hs; split <;> (intro hs; cases hs)
      | hashFailO => rw [hs] at hf; cases hf
      | putFailO => rw [hs] at hf; cases hf
      | uploadedO =>
        obtain ⟨hnu, hup, herr⟩ := perFile_uploaded env opts d f hex hs
        simp only [List.filter_cons, List.countP_cons, hex, seqTally, hs,
          Bool.not_false, if_true, List.map_cons, tallyStats]
        rw [hup]
        simp only [herr, hnu, Bool.false_eq_true, if_false, Bool.not_true]
        refine ⟨?_, ?_, ?_⟩
        · rw [ih1]
        · simpa using ih2
        · simp [ih3, hnu]
      | skippedO =>
        obtain ⟨hnu, hup, herr⟩ := perFile_skipped env opts d f hex hs
        simp only [List.filter_cons, List.countP_cons, hex, seqTally, hs,
          Bool.not_false, if_true, List.map_cons, tallyStats]
        rw [hup]
        simp only [herr, hnu, Bool.false_eq_true, if_false, Bool.not_false, if_true]
        refine ⟨?_, ?_, ?_⟩
        · rw [ih1]
        · simpa using ih2
        · simp [ih3, hnu]

theorem checkedTasks_as_chk (env : OSSEnv) (opts : UploadOptions) (d : Str)
    (files : List FileEntry) :
    checkedTasks env opts d files
      = (files.filter (fun f => !isExcludedEntry opts f)).map (chkTask env opts d) := by
  unfold checkedTasks
  rw [scanPhase_fst]
  cases hinc : opts.incremental with
  | false =>
    simp only [Bool.false_eq_true, if_false]
    refine List.map_congr_left fun f hf => ?_
    simp [chkTask, hinc]
  | true =>
    simp only [if_true]
    unfold hashPhase
    rw [List.map_map]
    refine List.map_congr_left fun f hf => ?_
    simp [Function.comp, mkScanTask, hinc, chkTask, hashCheckTask]

theorem concQuad_eq (env : OSSEnv) (opts : UploadOptions) (d : Str)
    (files : List FileEntry) (w : Int)
    (h : ∀ f ∈ files, isFailStep (seqStep env opts d f) = false) :
    concQuad (concurrentUploadDirectory env opts d files w).result
      = ((seqTally env opts d files).upload, 0,
         (seqTally env opts d files).skip, (seqTally env opts d files).exclude) := by
  obtain ⟨hc1, hc2, hc3⟩ := concSeqCore env opts d files h
  have hchecked := checkedTasks_as_chk env opts d files
  have hfinal : (checkedTasks env opts d files).map (uploadTaskStep env)
      = (files.filter (fun f => !isExcludedEntry opts f)).map
          (fun f => uploadTaskStep env (chkTask env opts d f)) := by
    rw [hchecked, List.map_map]
    rfl
  simp only [concurrentUploadDirectory]
  split
  · rename_i hemp
    have hnil : (files.filter (fun f => !isExcludedEntry opts f)) = [] := by
      have h1 : (scanPhase opts d files).1 = [] := List.isEmpty_iff.mp hemp
      rw [scanPhase_fst] at h1
      exact List.map_eq_nil_iff.mp h1
    rw [hnil] at hc1
    simp only [List.map_nil, tallyStats, ConcStats.mk.injEq] at hc1
    obtain ⟨hup, -, hskip⟩ := hc1
    simp only [concQuad, scanPhase_snd, hc2, Prod.mk.injEq]
    exact ⟨hup, trivial, hskip, trivial⟩
  · split
    · rename_i hemp hall
      rw [Bool.and_eq_true] at hall
      obtain ⟨hinc, hcnt0⟩ := hall
      have hcnt : (checkedTasks env opts d files).countP (·.needUpload) = 0 :=
        beq_iff_eq.mp hcnt0
      rw [hchecked] at hcnt
      rw [hcnt] at hc3
      have hpart := tallyStats_partition ((files.filter (fun f => !isExcludedEntry opts f)).map
        (fun f => uploadTaskStep env (chkTask env opts d f)))
      rw [hc1] at hpart
      have hpart2 : (seqTally env opts d files).upload + 0 + (seqTally env opts d files).skip
          = (files.filter (fun f => !isExcludedEntry opts f)).length := by
        simpa using hpart
      have hlen : (scanPhase opts d files).1.length
          = (files.filter (fun f => !isExcludedEntry opts f)).length := by
        rw [scanPhase_fst, List.length_map]
      simp only [concQuad, scanPhase_snd, hc2, hlen, Prod.mk.injEq]
      refine ⟨hc3, trivial, ?_, trivial⟩
      omega
    · simp only [concQuad, hfinal, hc1, scanPhase_snd, hc2]

/-- Counterexample for C4 as stated: two files, the first failing to
upload.  Concurrent mode finishes with one success (the second file) and
one failure, while sequential mode aborts after the first file: it
uploads nothing and never reaches the second file, so the two modes do
not produce the same outcome counts. -/
theorem conc_seq_agree_counterexample :
    (concurrentUploadDirectory envPutFailA optsPlain ("proj/".toList) [fileA, fileB] 3).result
        = .finished ⟨1, 1, 0⟩ 0 2 true
    ∧ (sequentialUploadDirectory envPutFailA optsPlain ("proj/".toList) [fileA, fileB]).1
        = .error ()
    ∧ ((sequentialUploadDirectory envPutFailA optsPlain ("proj/".toList)
          [fileA, fileB]).2.filter (fun x => x.2 == StepOut.uploadedO)).length = 0 :=
  ⟨rfl, rfl, rfl⟩

/-- Claim C4 (amended): when no per-task error occurs, sequential and
concurrent mode produce the same outcome counts — the sequential run
succeeds with counters equal to the concurrent (succeeded, failed,
skipped, excluded) quadruple with zero failures, and the concurrent
outcome does not depend on the worker count.  (When a per-task error
occurs the modes genuinely diverge: sequential mode aborts at the first
error, see the counterexample.) -/
theorem conc_seq_agree (env : OSSEnv) (opts : UploadOptions) (d : Str)
    (files : List FileEntry) (w w' : Int)
    (h : ∀ f ∈ files, isFailStep (seqStep env opts d f) = false) :
    ∃ c : SeqCounts,
      (sequentialUploadDirectory env opts d files).1 = .ok c
      ∧ concQuad (concurrentUploadDirectory env opts d files w).result
          = (c.upload, 0, c.skip, c.exclude)
      ∧ concurrentUploadDirectory env opts d files w
          = concurrentUploadDirectory env opts d files w' := by
  refine ⟨⟨(seqTally env opts d files).upload, (seqTally env opts d files).exclude,
    (seqTally env opts d files).skip⟩, ?_, ?_, rfl⟩
  · have hw := seqWalkAux_ok env opts d files ⟨0, 0, 0⟩ h
    simpa [sequentialUploadDirectory] using hw
  · simpa using concQuad_eq env opts d files w h

/-- Witness for the amended C4: with two files and no failures the
sequential counters are two uploads, and the concurrent quadruple agrees
for any two worker counts. -/
theorem conc_seq_agree_witness :
    ∃ c : SeqCounts,
      (sequentialUploadDirectory envAllOk optsPlain ("proj/".toList) [fileA, fileB]).1 = .ok c
      ∧ concQuad (concurrentUploadDirectory envAllOk optsPlain ("proj/".toList)
            [fileA, fileB] 3).result = (c.upload, 0, c.skip, c.exclude)
      ∧ concurrentUploadDirectory envAllOk optsPlain ("proj/".toList) [fileA, fileB] 3
          = concurrentUploadDirectory envAllOk optsPlain ("proj/".toList) [fileA, fileB] 7 :=
  conc_seq_agree envAllOk optsPlain ("proj/".toList) [fileA, fileB] 3 7
    (by intro f hf; fin_cases hf <;> rfl)

/-- Witness for C5: a concrete two-file concurrent run finishes with two
successes and its tally sums to the task count. -/
theorem concurrent_tally_partition_witness :
    (2 : Nat) + 0 + 0 = (scanPhase optsPlain ("proj/".toList) [fileA, fileB]).1.length :=
  concurrent_tally_partition envAllOk optsPlain ("proj/".toList) [fileA, fileB] 3
    ⟨2, 0, 0⟩ 0 2 false rfl

/-- Witness for C6: the concrete run issues an upload call for
"proj/a.txt", and that call originates from a checked task with
`needUpload = true`. -/
theorem concurrent_put_only_needUpload_witness :
    ∃ t ∈ checkedTasks envAllOk optsPlain ("proj/".toList) [fileA, fileB],
      t.needUpload = true ∧ t.ossPath = "proj/a.txt".toList :=
  concurrent_put_only_needUpload envAllOk optsPlain ("proj/".toList) [fileA, fileB] 3
    ("proj/a.txt".toList) (by decide)

/-- Witness for C9: with a failing digest and a succeeding upload, the
one-file incremental concurrent run finishes with the aggregate-error
flag and a positive failure count. -/
theorem concurrent_hash_error_still_failed_witness :
    ∃ stats e u,
      (concurrentUploadDirectory envMD5Fail optsIncr ("proj/".toList) [fileA] 4).result
        = .finished stats e u true ∧ 0 < stats.error :=
  (concurrent_hash_error_still_failed envMD5Fail optsIncr ("proj/".toList) [fileA] 4
    { localPath := "r/a.txt".toList, ossPath := "proj/a.txt".toList,
      needUpload := true, err := false, needCheckHash := true }
    rfl (by decide) rfl rfl).2.2.2.2
